import Mathlib

/-!
DerbyStats/rankings: a shallow embedding of `main.go`.

The program serves a ladder of roller-derby teams.  `getRanking` streams the
games of the database through the rating engine, `GetTeamsWithGamesInPastYear`
keeps the teams that are still active, `renderLadder` sorts and numbers them,
`GetTeamInfo` loads the team metadata and `serveDump` exports whole tables.

Conventions of the embedding:

* a Go `map[int]β` is an association list `GoMap β` with `GoMap.get?`,
  `GoMap.index` (Go's `m[k]`, the zero value when the key is absent) and
  `GoMap.set` (Go's `m[k] = v`);
* the order in which `range` visits the keys of a map is not fixed by Go; it is
  the parameter `range : List Int → List Int` of the functions that iterate a map;
* `sort.Slice` is the parameter `srt`; `go_insertionSort` is the routine the Go
  library runs on short slices;
* a `(value, error)` result is an `Except Err value`;
* the result set of `db.Query` is a `Rows α`: the outcome of `rows.Scan` for each
  row that `rows.Next()` delivered, and the error `rows.Err()` reports once
  `rows.Next()` has returned false;
* the rating engine (`NewRanker`, `AddGame`, `Rankings`) lives in another file of
  the repository and is the parameter `R : Ranker`.
-/

namespace Rankings

/-! ## Go values -/

/-- A Go `error` value, by its message. -/
abbrev Err := String

deriving instance DecidableEq for Except

/-- A Go `map[int]β`. -/
abbrev GoMap (β : Type) := List (Int × β)

namespace GoMap

/-- The keys of a map. -/
def keys {β : Type} (m : GoMap β) : List Int := m.map Prod.fst

/-- The two-valued lookup `v, ok := m[k]`. -/
def get? {β : Type} (m : GoMap β) (k : Int) : Option β := List.lookup k m

/-- The lookup `m[k]`: the zero value of the element type when `k` is absent. -/
def index {β : Type} [Inhabited β] (m : GoMap β) (k : Int) : β := (m.get? k).getD default

/-- The assignment `m[k] = v`. -/
def set {β : Type} : GoMap β → Int → β → GoMap β
  | [], k, v => [(k, v)]
  | (k', v') :: m, k, v => if k' = k then (k, v) :: m else (k', v') :: set m k v

end GoMap

/-! ## The database -/

/-- The result set of one `db.Query`: for every row that `rows.Next()` delivered the
outcome of `rows.Scan`, and the error that ended the iteration, if any (`rows.Err()`). -/
structure Rows (α : Type) where
  scans : List (Except Err α)
  err : Option Err

/-- The loop `for rows.Next() { if err := rows.Scan(..); err != nil { return nil, err }; body }`,
which is how every result set of the program is read.  The loop ends when
`rows.Next()` returns false; the program never consults `rows.Err()`. -/
def forRows {α σ : Type} (body : σ → α → σ) : σ → List (Except Err α) → Except Err σ
  | s, [] => .ok s
  | _, .error e :: _ => .error e
  | s, .ok a :: rest => forRows body (body s a) rest

/-- Modelled from the spec: the struct `GameResult` of the engine, which is declared in
another file of the repository.  Its fields are the seven that line 137 scans, the Game
Record of section 3 of the spec. -/
structure GameResult where
  isTournament : Bool
  homeHostingTournament : Bool
  awayHostingTournament : Bool
  homeTeam : Int
  awayTeam : Int
  homeScore : Int
  awayScore : Int
deriving DecidableEq, Repr

/-- A row of the team query of `GetTeamInfo`, in the order of its ten columns:
`Teams.team, Teams.parentTeam, COALESCE(Teams.league, ""), COALESCE(parent.league, ""),
COALESCE(Teams.name, ""), ...`. -/
structure TeamRow where
  team : Int
  parentTeam : Option Int
  league : String
  parentLeague : String
  name : String
  type : String
  location : String
  website : String
  region : String
  genus : String
deriving DecidableEq, Repr

/-- The SQL statements the program sends to the database. -/
inductive Stmt where
  /-- The team query of `GetTeamInfo` (lines 46-50). -/
  | teamInfo (teams : List Int)
  /-- The first query of `GetTeamsWithGamesInPastYear` (lines 78-79). -/
  | homeTeams (teams : List Int)
  /-- The second query of `GetTeamsWithGamesInPastYear` (lines 92-93). -/
  | awayTeams (teams : List Int)
  /-- The game query of `getRanking` (lines 110-128). -/
  | ranking (genus : String)
  /-- The table dump of `serveDump` (line 278). -/
  | dump (table : String)
deriving DecidableEq, Repr

/-- The database handle `db`: what `db.Query` answers to a statement, by the shape of
the rows the caller scans. -/
structure DB where
  games : Stmt → Except Err (Rows GameResult)
  team : Stmt → Except Err (Rows Int)
  info : Stmt → Except Err (Rows TeamRow)
  table : Stmt → Except Err (List (List String))

/-- The rating engine, which is declared in another file of the repository:
`NewRanker()`, `ranker.AddGame(gr)` and `ranker.Rankings()`.  Every theorem holds for
every engine. -/
structure Ranker where
  State : Type
  NewRanker : State
  AddGame : State → GameResult → State
  Rankings : State → GoMap Int

/-! ## `GetTeamsWithGamesInPastYear` and `getRanking` -/

/-- The loop `for rows.Next() { ...; result[team] = struct{}{} }` of lines 84-90 and 98-104. -/
def addTeams (result : GoMap Unit) (rows : Rows Int) : Except Err (GoMap Unit) :=
  forRows (fun res team => res.set team ()) result rows.scans

/-- `GetTeamsWithGamesInPastYear(db, teams)`, lines 71-106. -/
def GetTeamsWithGamesInPastYear (db : DB) (teams : List Int) : Except Err (GoMap Unit) :=
  match db.team (.homeTeams teams) with
  | .error e => .error e
  | .ok rows =>
    match addTeams [] rows with
    | .error e => .error e
    | .ok result =>
      match db.team (.awayTeams teams) with
      | .error e => .error e
      | .ok rows2 => addTeams result rows2

/-- Lines 109-144 of `getRanking`: the game query, the loop that feeds every scanned
game to the engine, and `ranker.Rankings()`. -/
def engineRankings (db : DB) (R : Ranker) (genus : String) : Except Err (GoMap Int) :=
  match db.games (.ranking genus) with
  | .error e => .error e
  | .ok rows =>
    match forRows R.AddGame R.NewRanker rows.scans with
    | .error e => .error e
    | .ok ranker => .ok (R.Rankings ranker)

/-- Lines 155-158 of `getRanking`: `activeRankings[team] = rankings[team]` for every
team of `activeTeams`, visited in the order `teams`. -/
def activeRankings (rankings : GoMap Int) (teams : List Int) : GoMap Int :=
  teams.foldl (fun acc team => acc.set team (rankings.index team)) []

/-- `getRanking(db, genus)`, lines 108-160. -/
def getRanking (db : DB) (R : Ranker) (range : List Int → List Int) (genus : String) :
    Except Err (GoMap Int) :=
  match engineRankings db R genus with
  | .error e => .error e
  | .ok rankings =>
    let teams := range rankings.keys
    match GetTeamsWithGamesInPastYear db teams with
    | .error e => .error e
    | .ok activeTeams => .ok (activeRankings rankings (range activeTeams.keys))

/-! ## What SQLite answers to the two past-year statements -/

/-- A row of the table `Games`, by the three columns that the past-year statements read.
A day is a day number, so that `day >= DATE("now", "-1 year")` is `lastYear ≤ day`. -/
structure Game where
  homeTeam : Int
  awayTeam : Int
  day : Nat
deriving DecidableEq, Repr

/-- The clause `WHERE day >= DATE("now", "-1 year") AND homeTeam in (ids)` of line 78;
`lastYear` is the value of `DATE("now", "-1 year")`. -/
def homeWhere (lastYear : Nat) (teams : List Int) (g : Game) : Bool :=
  decide (lastYear ≤ g.day) && decide (g.homeTeam ∈ teams)

/-- The clause `WHERE day >= DATE("now", "-1 year") AND awayTeam in (ids)` of line 92. -/
def awayWhere (lastYear : Nat) (teams : List Int) (g : Game) : Bool :=
  decide (lastYear ≤ g.day) && decide (g.awayTeam ∈ teams)

/-- The clause `GROUP BY homeTeam` (lines 79 and 93): the selected rows, one group for
each distinct `homeTeam`. -/
def groupByHomeTeam (sel : List Game) : List (List Game) :=
  (sel.map Game.homeTeam).dedup.map (fun h => sel.filter (fun g => g.homeTeam = h))

/-- The rows of `SELECT col ... GROUP BY homeTeam`: one row for each group.  `col` is a
bare column, so SQLite reads it from one row of the group, which one being its own
choice: the row of index `pick grp % grp.length`. -/
def selectGrouped (pick : List Game → Nat) (col : Game → Int) (sel : List Game) : List Int :=
  (groupByHomeTeam sel).filterMap (fun grp => (grp.get? (pick grp % grp.length)).map col)

/-- The answer to the statement of lines 78-79. -/
def homeTeamsAnswer (pick : List Game → Nat) (tbl : List Game) (lastYear : Nat)
    (teams : List Int) : List Int :=
  selectGrouped pick Game.homeTeam (tbl.filter (homeWhere lastYear teams))

/-- The answer to the statement of lines 92-93. -/
def awayTeamsAnswer (pick : List Game → Nat) (tbl : List Game) (lastYear : Nat)
    (teams : List Int) : List Int :=
  selectGrouped pick Game.awayTeam (tbl.filter (awayWhere lastYear teams))

/-- A result set that delivers the rows `answer` without any failure. -/
def Rows.ofList {α : Type} (answer : List α) : Rows α := ⟨answer.map .ok, none⟩

/-- The database `db` with the table `Games` holding `tbl`, read without failures. -/
def DB.withGames (db : DB) (pick : List Game → Nat) (tbl : List Game) (lastYear : Nat) : DB :=
  { db with
    team := fun
      | .homeTeams teams => .ok (Rows.ofList (homeTeamsAnswer pick tbl lastYear teams))
      | .awayTeams teams => .ok (Rows.ofList (awayTeamsAnswer pick tbl lastYear teams))
      | s => db.team s }

/-- A database on which every statement fails. -/
def DB.down : DB :=
  { games := fun _ => .error "down", team := fun _ => .error "down",
    info := fun _ => .error "down", table := fun _ => .error "down" }

/-- Every row that the result set `r` delivers is a row of `answer` (the cursor may still
fail, or stop early). -/
def Delivers (r : Except Err (Rows Int)) (answer : List Int) : Prop :=
  ∀ rows, r = .ok rows → ∀ t, Except.ok t ∈ rows.scans → t ∈ answer

/-- The database answers the two past-year statements from the table `tbl`. -/
def DB.HoldsGames (db : DB) (pick : List Game → Nat) (tbl : List Game) (lastYear : Nat) : Prop :=
  ∀ teams, Delivers (db.team (.homeTeams teams)) (homeTeamsAnswer pick tbl lastYear teams) ∧
    Delivers (db.team (.awayTeams teams)) (awayTeamsAnswer pick tbl lastYear teams)

/-- A team has a game on or after `lastYear`, at home or away. -/
def PlaysSince (tbl : List Game) (lastYear : Nat) (t : Int) : Prop :=
  ∃ g ∈ tbl, lastYear ≤ g.day ∧ (g.homeTeam = t ∨ g.awayTeam = t)

/-! ## `GetTeamInfo` -/

/-- The struct `TeamInfo`, lines 28-38 (`Type_` is its field `Type`). -/
structure TeamInfo where
  Team : Int
  ParentTeam : Option Int
  League : String
  Name : String
  Type_ : String
  Location : String
  Website : String
  Region : String
  Genus : String
deriving DecidableEq, Repr

/-- The zero value of `TeamInfo`, which `ti[team]` yields for a team that is not a key. -/
instance : Inhabited TeamInfo := ⟨⟨0, none, "", "", "", "", "", "", ""⟩⟩

/-- The body of the loop of `GetTeamInfo`, lines 57-66: the row is scanned into `ti` and
`parentLeague`, the league is replaced when `ti.ParentTeam != nil`, and `ti` is stored
under `ti.Team`. -/
def storeTeam (result : GoMap TeamInfo) (row : TeamRow) : GoMap TeamInfo :=
  let ti : TeamInfo :=
    { Team := row.team, ParentTeam := row.parentTeam, League := row.league, Name := row.name,
      Type_ := row.type, Location := row.location, Website := row.website,
      Region := row.region, Genus := row.genus }
  let parentLeague := row.parentLeague
  let ti := if ti.ParentTeam ≠ none then { ti with League := parentLeague } else ti
  result.set ti.Team ti

/-- `GetTeamInfo(db, teams)`, lines 40-69. -/
def GetTeamInfo (db : DB) (teams : List Int) : Except Err (GoMap TeamInfo) :=
  match db.info (.teamInfo teams) with
  | .error e => .error e
  | .ok rows => forRows storeTeam [] rows.scans

/-! ## `renderLadder` -/

/-- The package variable `genera`, line 163. -/
def genera : List String := ["Women", "Men", "Open to All"]

/-- The package variable `regions`, line 164. -/
def regions : List String := ["", "Europe", "Northern America", "Latin America", "Pacific"]

/-- The struct `entry` of `renderLadder`, lines 192-197.  `Rating` is the exact value of
`rankings[team] / 10`; the rounding of `float64` is not modelled. -/
structure entry where
  Rank : Int
  Team : Int
  TeamInfo : TeamInfo
  Rating : ℚ
deriving DecidableEq

/-- The value `data` that `renderLadder` hands to the template, lines 198-209. -/
structure LadderData where
  Regions : List String
  Region : String
  Genera : List String
  Genus : String
  Rankings : List entry
deriving DecidableEq

/-- The template engine: `template.ParseFiles(files...)` and `tmpl.Execute(w, data)`,
each by the error it returns, if any. -/
structure Templates where
  ParseFiles : List String → Option Err
  Execute : List String → Option Err

/-- The comparison handed to `sort.Slice` at lines 178-180, on the elements of the slice:
`rankings[a] > rankings[b]`. -/
def ladderLess (rankings : GoMap Int) (a b : Int) : Bool :=
  decide (rankings.index a > rankings.index b)

/-- Lines 173-180 of `renderLadder`: the keys of `rankings`, in the order `range` visits
them, sorted by `sort.Slice`. -/
def sortLadder (srt : (Int → Int → Bool) → List Int → List Int) (range : List Int → List Int)
    (rankings : GoMap Int) : List Int :=
  srt (ladderLess rankings) (range rankings.keys)

/-- One round of the loop of lines 212-223; the state is `rank` and `data.Rankings`. -/
def ladderStep (region : String) (ti : GoMap TeamInfo) (rankings : GoMap Int)
    (st : Int × List entry) (team : Int) : Int × List entry :=
  if region ≠ "" ∧ (ti.index team).Region ≠ region then st
  else
    let rank := st.1 + 1
    (rank, st.2 ++ [{ Rank := rank, Team := team, TeamInfo := ti.index team,
                      Rating := (rankings.index team : ℚ) / 10 }])

/-- Lines 210-223 of `renderLadder`: the entries of the ladder. -/
def ladderEntries (region : String) (ti : GoMap TeamInfo) (rankings : GoMap Int)
    (ladder : List Int) : List entry :=
  (ladder.foldl (ladderStep region ti rankings) (0, [])).2

/-- `renderLadder(db, genus, region, w)`, lines 167-225: the error it returns, or the
data from which the page was written to `w`. -/
def renderLadder (db : DB) (R : Ranker) (range : List Int → List Int)
    (srt : (Int → Int → Bool) → List Int → List Int) (tmpl : Templates)
    (genus region : String) : Except Err LadderData :=
  match getRanking db R range genus with
  | .error e => .error e
  | .ok rankings =>
    let ladder := sortLadder srt range rankings
    match GetTeamInfo db ladder with
    | .error e => .error e
    | .ok ti =>
      match tmpl.ParseFiles ["templates/ladder.html", "templates/common.html"] with
      | some e => .error e
      | none =>
        let data : LadderData :=
          { Region := region, Regions := regions, Genus := genus, Genera := genera,
            Rankings := ladderEntries region ti rankings ladder }
        match tmpl.Execute ["templates/ladder.html", "templates/common.html"] with
        | some e => .error e
        | none => .ok data

/-! ## `sort.Slice` -/

/-- The inner loop of the insertion sort of Go's `sort` package,
`for j := i; j > a && less(j, j-1); j-- { swap(j, j-1) }`: the element `x` moves left
past every element it is less than.  The sorted part is held last element first. -/
def go_insert {α : Type} (less : α → α → Bool) (x : α) : List α → List α
  | [] => [x]
  | p :: ps => if less x p then p :: go_insert less x ps else x :: p :: ps

/-- The insertion sort that `sort.Slice` runs on a short slice. -/
def go_insertionSort {α : Type} (less : α → α → Bool) (l : List α) : List α :=
  (l.foldl (fun sorted x => go_insert less x sorted) []).reverse

/-- What `sort.Slice` promises for a comparison `key a > key b`: the slice is rearranged,
and afterwards no element is less than an earlier one.  It promises no order among
elements of equal key. -/
def SortsDescending (srt : (Int → Int → Bool) → List Int → List Int) : Prop :=
  ∀ (rankings : GoMap Int) (l : List Int),
    (srt (ladderLess rankings) l).Perm l ∧
    (srt (ladderLess rankings) l).Pairwise (fun a b => rankings.index a ≥ rankings.index b)

/-! ## The SQL text -/

/-- `strconv.FormatInt(int64(t), 10)`. -/
def FormatInt : Int → String
  | .ofNat n => String.mk (Nat.toDigits 10 n)
  | .negSucc n => String.mk ('-' :: Nat.toDigits 10 (n + 1))

/-- `strings.Join(elems, sep)`. -/
def Join : List String → String → String
  | [], _ => ""
  | [a], _ => a
  | a :: b :: rest, sep => a ++ sep ++ Join (b :: rest) sep

/-- The slice `ids` of lines 41-44 and 73-76. -/
def ids (teams : List Int) : List String := teams.map FormatInt

/-- The text of the game query before the genus clause, lines 110-120. -/
def rankingSelect : String :=
  "SELECT Games.tournament IS NOT NULL, tourH.team is NOT NULL, tourA.team is NOT NULL, \n" ++
  "  Games.homeTeam, Games.awayTeam, Games.homeScore, Games.awayScore \n" ++
  "  FROM Games \n" ++
  "  JOIN Teams AS teamH ON teamH.team = Games.homeTeam\n" ++
  "  JOIN Teams AS teamA ON teamA.team = Games.awayTeam\n" ++
  "  LEFT JOIN TournamentHostingTeams AS tourH ON tourH.tournament = Games.tournament AND tourH.team = Games.homeTeam\n" ++
  "  LEFT JOIN TournamentHostingTeams AS tourA ON tourA.tournament = Games.tournament AND tourA.team = Games.awayTeam\n" ++
  "  WHERE \n" ++
  "  teamH.type != \"Exhibition Team\" AND teamA.type != \"Exhibition Team\"\n" ++
  "  AND ruleset = \"WFTDA\"\n" ++
  "  AND homeScore IS NOT NULL AND awayScore IS NOT NULL"

/-- The text of the team query up to the list of ids, lines 46-50. -/
def teamInfoSelect : String :=
  "SELECT Teams.team, Teams.parentTeam, COALESCE(Teams.league, \"\"), COALESCE(parent.league, \"\"), COALESCE(Teams.name, \"\"), \n" ++
  "         COALESCE(Teams.type, \"\"), COALESCE(Teams.location, \"\"), COALESCE(Teams.website, \"\"), COALESCE(Teams.region, \"\"), COALESCE(Teams.genus, \"\")\n" ++
  "      FROM Teams \n" ++
  "      LEFT JOIN Teams as parent ON Teams.parentTeam = parent.team\n" ++
  "      WHERE Teams.team in ("

/-- The text that `db.Query` receives for a statement. -/
def Stmt.sql : Stmt → String
  | .teamInfo teams => teamInfoSelect ++ Join (ids teams) "," ++ ")"
  | .homeTeams teams =>
    "SELECT homeTeam FROM Games WHERE day >= DATE(\"now\", \"-1 year\") \n      AND homeTeam in (" ++
      Join (ids teams) "," ++ ") GROUP BY homeTeam"
  | .awayTeams teams =>
    "SELECT awayTeam FROM Games WHERE day >= DATE(\"now\", \"-1 year\")\n      AND awayTeam in (" ++
      Join (ids teams) "," ++ ") GROUP BY homeTeam"
  | .ranking genus =>
    (if genus ≠ "" then rankingSelect ++ " AND teamH.genus=? AND teamA.genus=?" else rankingSelect) ++
      "  ORDER BY day, time, game"
  | .dump t => "SELECT * FROM " ++ t

/-- The arguments that `db.Query` receives besides the text (`params`, lines 109 and 124). -/
def Stmt.params : Stmt → List String
  | .ranking genus => if genus ≠ "" then [genus, genus] else []
  | _ => []

/-! ## `serveDump` -/

/-- What a handler writes to the `http.ResponseWriter`. -/
inductive Response where
  /-- A CSV download: the headers `Content-type` and `Content-Disposition`, then the
  rows written by `sqltocsv.Write`. -/
  | csv (contentType disposition : String) (rows : List (List String))
  /-- A page written by `tmpl.Execute(w, data)`. -/
  | page (files : List String) (data : List String)
  /-- The reply of `http.Error(w, msg, code)`. -/
  | error (msg : String) (code : Nat)
deriving DecidableEq, Repr

/-- A handled request: the SQL texts passed to `db.Query`, in order, and the response. -/
structure Served where
  queries : List String
  response : Response
deriving DecidableEq, Repr

/-- `r.URL.Query().Get("table")`: the first value of the parameter, the empty string when
the request has none.  `values` are the values of `table` in the URL. -/
def queryGet (values : List String) : String := values.headD ""

/-- The slice `tables` of line 274. -/
def tables : List String :=
  ["Games", "Teams", "Tournaments", "GameSanctioning", "TournamentHostingTeams"]

/-- Lines 292-304 of `serveDump`: the index page, from `templates/dump.html`, with the
list of tables as its data. -/
def dumpIndex (tmpl : Templates) : Response :=
  match tmpl.ParseFiles ["templates/dump.html", "templates/common.html"] with
  | some e => .error e 500
  | none =>
    match tmpl.Execute ["templates/dump.html", "templates/common.html"] with
    | some e => .error e 500
    | none => .page ["templates/dump.html", "templates/common.html"] tables

/-- The loop of lines 276-290 over the remaining tables `ts`, followed by lines 292-304. -/
def dumpLoop (db : DB) (tmpl : Templates) (table : String) : List String → Served
  | [] => ⟨[], dumpIndex tmpl⟩
  | t :: ts =>
    if t = table then
      match db.table (.dump t) with
      | .error e => ⟨[Stmt.sql (.dump t)], .error e 500⟩
      | .ok rows =>
        ⟨[Stmt.sql (.dump t)],
          .csv "text/csv" ("attachment; filename=\"" ++ t ++ ".csv\"") rows⟩
    else dumpLoop db tmpl table ts

/-- `serveDump(logger, db, w, r)`, lines 272-305. -/
def serveDump (db : DB) (tmpl : Templates) (values : List String) : Served :=
  dumpLoop db tmpl (queryGet values) tables

/-! ## The ladder, stated directly -/

/-- The region filter of line 213, as the condition under which a team is kept. -/
def passesRegion (region : String) (ti : GoMap TeamInfo) (team : Int) : Bool :=
  decide (region = "" ∨ (ti.index team).Region = region)

/-- The entries of the teams `l`, in order, with the ranks `rank + 1`, `rank + 2`, ... -/
def numbered (ti : GoMap TeamInfo) (rankings : GoMap Int) : Int → List Int → List entry
  | _, [] => []
  | rank, team :: l =>
    { Rank := rank + 1, Team := team, TeamInfo := ti.index team,
      Rating := (rankings.index team : ℚ) / 10 } :: numbered ti rankings (rank + 1) l

/-- The `TeamInfo` that `GetTeamInfo` makes of a row, stated directly: the league of the
parent when the row has a parent team, the row's own columns otherwise. -/
def teamInfoOf (row : TeamRow) : TeamInfo :=
  { Team := row.team, ParentTeam := row.parentTeam,
    League := if row.parentTeam.isSome then row.parentLeague else row.league,
    Name := row.name, Type_ := row.type, Location := row.location, Website := row.website,
    Region := row.region, Genus := row.genus }

/-! ## Sample inputs -/

/-- A sample engine: every game moves the two ratings by the score difference. -/
def sampleRanker : Ranker :=
  { State := GoMap Int
    NewRanker := []
    AddGame := fun st gr =>
      let st := st.set gr.homeTeam (st.index gr.homeTeam + (gr.homeScore - gr.awayScore))
      st.set gr.awayTeam (st.index gr.awayTeam + (gr.awayScore - gr.homeScore))
    Rankings := fun st => st }

/-- A sample template engine that never fails. -/
def sampleTemplates : Templates := { ParseFiles := fun _ => none, Execute := fun _ => none }

/-- Two sample games of the ranking query: team 1 beats team 2, team 3 beats team 4. -/
def sampleResults : List GameResult :=
  [⟨false, false, false, 1, 2, 100, 50⟩, ⟨false, false, false, 3, 4, 80, 70⟩]

/-- A sample `Games` table: the first game was played on day 400, the second on day 10. -/
def sampleGames : List Game := [⟨1, 2, 400⟩, ⟨3, 4, 10⟩]

/-- A sample database: the table `sampleGames`, read on a day whose
`DATE("now", "-1 year")` is day 100, and the ranking query answering `sampleResults`. -/
def sampleDB : DB :=
  { DB.down.withGames (fun _ => 0) sampleGames 100 with
    games := fun _ => .ok (Rows.ofList sampleResults) }

/-- The sample database when the iteration over the games fails after the first row:
`rows.Next()` returns false and `rows.Err()` is the error. -/
def brokenDB : DB :=
  { sampleDB with games := fun _ => .ok ⟨(sampleResults.take 1).map .ok, some "disk I/O error"⟩ }

/-- A `Games` table in which team 1 hosts team 2 and team 3 within the past year. -/
def hostGames : List Game := [⟨1, 2, 400⟩, ⟨1, 3, 401⟩]

/-- A sample database with three teams tied at rating 0: team 1 draws against team 2 and
team 3 draws against team 1, both within the past year; the team query has no rows. -/
def tieDB : DB :=
  { DB.down.withGames (fun _ => 0) [⟨1, 2, 400⟩, ⟨3, 1, 401⟩] 100 with
    games := fun _ => .ok (Rows.ofList
      [⟨false, false, false, 1, 2, 50, 50⟩, ⟨false, false, false, 3, 1, 60, 60⟩])
    info := fun _ => .ok (Rows.ofList []) }

/-- An iteration order: the keys from the second on, then the first. -/
def rotated (l : List Int) : List Int := l.rotate 1

/-- A sample row of the team query: team 7, a B team of team 3. -/
def sampleTeamRow : TeamRow :=
  ⟨7, some 3, "", "Gotham", "Gotham B", "B Team", "New York", "", "Northern America", "Women"⟩

/-- A sample database whose team query has the rows of team 3 and of team 7. -/
def teamDB : DB :=
  { DB.down with
    info := fun _ => .ok (Rows.ofList
      [⟨3, none, "Gotham", "", "Gotham A", "Travel Team", "New York", "", "Northern America",
        "Women"⟩, sampleTeamRow]) }

/-- A sample database whose table dumps answer a header row and one row. -/
def dumpDB : DB :=
  { DB.down with table := fun _ => .ok [["team", "name"], ["7", "Gotham B"]] }

/-! ## Maps: lookups after assignments -/

theorem GoMap.get?_nil {β : Type} (k : Int) : GoMap.get? ([] : GoMap β) k = none := rfl

theorem GoMap.get?_cons {β : Type} (a : Int) (b : β) (m : GoMap β) (k : Int) :
    GoMap.get? ((a, b) :: m) k = if k = a then some b else GoMap.get? m k := by
  unfold GoMap.get?
  by_cases h : k = a
  · simp [List.lookup, h]
  · have h2 : (k == a) = false := by simpa using h
    simp [List.lookup, h, h2]

theorem GoMap.get?_set {β : Type} (m : GoMap β) (k : Int) (v : β) (k' : Int) :
    (m.set k v).get? k' = if k' = k then some v else m.get? k' := by
  induction m with
  | nil => simp [GoMap.set, GoMap.get?_cons, GoMap.get?_nil]
  | cons p m ih =>
    obtain ⟨a, b⟩ := p
    by_cases hak : a = k
    · subst hak
      simp only [GoMap.set, if_true, GoMap.get?_cons]
      by_cases h1 : k' = a
      · simp [h1]
      · simp [h1]
    · simp only [GoMap.set, hak, if_false, GoMap.get?_cons, ih]
      by_cases h1 : k' = a
      · have h2 : ¬ k' = k := fun e => hak (h1 ▸ e)
        simp [h1, h2, hak]
      · simp [h1]

theorem GoMap.mem_keys_set {β : Type} (m : GoMap β) (k : Int) (v : β) (k' : Int) :
    k' ∈ (m.set k v).keys ↔ k' = k ∨ k' ∈ m.keys := by
  induction m with
  | nil => simp [GoMap.set, GoMap.keys]
  | cons p m ih =>
    obtain ⟨a, b⟩ := p
    unfold GoMap.keys at ih ⊢
    by_cases hak : a = k
    · simp [GoMap.set, hak]
    · simp only [GoMap.set, hak, if_false, List.map_cons, List.mem_cons, ih]
      tauto

theorem GoMap.get?_isSome_iff {β : Type} (m : GoMap β) (k : Int) :
    (m.get? k).isSome ↔ k ∈ m.keys := by
  induction m with
  | nil => simp [GoMap.get?_nil, GoMap.keys]
  | cons p m ih =>
    obtain ⟨a, b⟩ := p
    rw [GoMap.get?_cons]
    have hk : k ∈ GoMap.keys ((a, b) :: m) ↔ k = a ∨ k ∈ GoMap.keys m := by
      simp [GoMap.keys]
    rw [hk, ← ih]
    by_cases h : k = a
    · simp [h]
    · simp [h]

/-! ## `getRanking`: the active-team filter -/

theorem foldl_set_get? (rankings : GoMap Int) (teams : List Int) (acc : GoMap Int) (k : Int) :
    (teams.foldl (fun acc team => acc.set team (rankings.index team)) acc).get? k =
      if k ∈ teams then some (rankings.index k) else acc.get? k := by
  induction teams generalizing acc with
  | nil => simp
  | cons t ts ih =>
    rw [List.foldl_cons, ih, GoMap.get?_set]
    by_cases h1 : k ∈ ts
    · simp [h1]
    · by_cases h2 : k = t
      · simp [h2]
      · simp [h1, h2]

theorem activeRankings_get? (rankings : GoMap Int) (teams : List Int) (k : Int) :
    (activeRankings rankings teams).get? k =
      if k ∈ teams then some (rankings.index k) else none := by
  unfold activeRankings
  rw [foldl_set_get?, GoMap.get?_nil]

theorem activeRankings_mem_keys (rankings : GoMap Int) (teams : List Int) (k : Int) :
    k ∈ (activeRankings rankings teams).keys ↔ k ∈ teams := by
  rw [← GoMap.get?_isSome_iff, activeRankings_get?]
  by_cases h : k ∈ teams
  · simp [h]
  · simp [h]

theorem getRanking_ok {db : DB} {R : Ranker} {range : List Int → List Int} {genus : String}
    {rankings m : GoMap Int} (hE : engineRankings db R genus = .ok rankings)
    (hG : getRanking db R range genus = .ok m) :
    ∃ activeTeams, GetTeamsWithGamesInPastYear db (range rankings.keys) = .ok activeTeams ∧
      m = activeRankings rankings (range activeTeams.keys) := by
  unfold getRanking at hG
  rw [hE] at hG
  simp only at hG
  cases hA : GetTeamsWithGamesInPastYear db (range rankings.keys) with
  | error e => rw [hA] at hG; cases hG
  | ok activeTeams =>
    rw [hA] at hG
    refine ⟨activeTeams, rfl, ?_⟩
    injection hG with hG
    exact hG.symm

theorem forRows_set_keys (scans : List (Except Err Int)) (result res : GoMap Unit)
    (h : forRows (fun res team => res.set team ()) result scans = .ok res) :
    ∀ k ∈ res.keys, k ∈ result.keys ∨ Except.ok k ∈ scans := by
  induction scans generalizing result with
  | nil =>
    simp only [forRows] at h
    injection h with h
    subst h
    intro k hk
    exact Or.inl hk
  | cons sc rest ih =>
    cases sc with
    | error e => simp [forRows] at h
    | ok a =>
      simp only [forRows] at h
      intro k hk
      rcases ih _ h k hk with h1 | h1
      · rcases (GoMap.mem_keys_set result a () k).1 h1 with h2 | h2
        · subst h2
          exact Or.inr (List.mem_cons_self _ _)
        · exact Or.inl h2
      · exact Or.inr (List.mem_cons_of_mem _ h1)

theorem mem_selectGrouped {pick : List Game → Nat} {col : Game → Int} {sel : List Game}
    {t : Int} (h : t ∈ selectGrouped pick col sel) : ∃ g ∈ sel, col g = t := by
  unfold selectGrouped groupByHomeTeam at h
  rw [List.mem_filterMap] at h
  obtain ⟨grp, hgrp, hsel⟩ := h
  rw [List.mem_map] at hgrp
  obtain ⟨hd, _, rfl⟩ := hgrp
  rw [Option.map_eq_some'] at hsel
  obtain ⟨g, hg, rfl⟩ := hsel
  have hmem := List.get?_mem hg
  exact ⟨g, (List.mem_filter.1 hmem).1, rfl⟩

theorem homeTeamsAnswer_subset {pick : List Game → Nat} {tbl : List Game} {lastYear : Nat}
    {teams : List Int} {t : Int} (h : t ∈ homeTeamsAnswer pick tbl lastYear teams) :
    t ∈ teams ∧ PlaysSince tbl lastYear t := by
  obtain ⟨g, hg, rfl⟩ := mem_selectGrouped h
  rw [List.mem_filter] at hg
  obtain ⟨hg1, hg2⟩ := hg
  simp only [homeWhere, Bool.and_eq_true, decide_eq_true_eq] at hg2
  exact ⟨hg2.2, g, hg1, hg2.1, Or.inl rfl⟩

theorem awayTeamsAnswer_subset {pick : List Game → Nat} {tbl : List Game} {lastYear : Nat}
    {teams : List Int} {t : Int} (h : t ∈ awayTeamsAnswer pick tbl lastYear teams) :
    t ∈ teams ∧ PlaysSince tbl lastYear t := by
  obtain ⟨g, hg, rfl⟩ := mem_selectGrouped h
  rw [List.mem_filter] at hg
  obtain ⟨hg1, hg2⟩ := hg
  simp only [awayWhere, Bool.and_eq_true, decide_eq_true_eq] at hg2
  exact ⟨hg2.2, g, hg1, hg2.1, Or.inr rfl⟩

/-- Every team that `GetTeamsWithGamesInPastYear` returns is one of the teams asked for
and has a game on or after `lastYear`. -/
theorem GetTeamsWithGamesInPastYear_sound {db : DB} {pick : List Game → Nat} {tbl : List Game}
    {lastYear : Nat} (hdb : db.HoldsGames pick tbl lastYear) {teams : List Int}
    {result : GoMap Unit} (h : GetTeamsWithGamesInPastYear db teams = .ok result) :
    ∀ t ∈ result.keys, t ∈ teams ∧ PlaysSince tbl lastYear t := by
  unfold GetTeamsWithGamesInPastYear at h
  obtain ⟨hH, hA⟩ := hdb teams
  cases h1 : db.team (.homeTeams teams) with
  | error e => rw [h1] at h; cases h
  | ok rows =>
    rw [h1] at h
    simp only at h
    cases h2 : addTeams [] rows with
    | error e => rw [h2] at h; cases h
    | ok res1 =>
      rw [h2] at h
      simp only at h
      cases h3 : db.team (.awayTeams teams) with
      | error e => rw [h3] at h; cases h
      | ok rows2 =>
        rw [h3] at h
        simp only at h
        intro t ht
        rcases forRows_set_keys _ _ _ h t ht with h4 | h4
        · rcases forRows_set_keys _ _ _ h2 t h4 with h5 | h5
          · simp [GoMap.keys] at h5
          · exact homeTeamsAnswer_subset (hH rows h1 t h5)
        · exact awayTeamsAnswer_subset (hA rows2 h3 t h4)

/-! ## C1, C2: the filter of `getRanking` -/

/-- C1: the active-team filter of `getRanking` never changes a rating.  A team that is a
key of the engine's mapping `rankings` and of the map `m` that `getRanking` returns has
in `m` exactly the rating it has in `rankings`. -/
theorem getRanking_keeps_rating (db : DB) (R : Ranker) (range : List Int → List Int)
    (genus : String) (rankings m : GoMap Int) (team rating : Int)
    (hE : engineRankings db R genus = .ok rankings)
    (hG : getRanking db R range genus = .ok m)
    (hr : rankings.get? team = some rating) (hm : team ∈ m.keys) :
    m.get? team = some rating := by
  obtain ⟨activeTeams, _, rfl⟩ := getRanking_ok hE hG
  rw [activeRankings_mem_keys] at hm
  rw [activeRankings_get?, if_pos hm]
  simp [GoMap.index, hr]

theorem getRanking_keeps_rating_witness :
    engineRankings sampleDB sampleRanker "" = .ok [(1, 50), (2, -50), (3, 10), (4, -10)] ∧
    getRanking sampleDB sampleRanker id "" = .ok [(1, 50), (2, -50)] ∧
    GoMap.get? [(1, 50), (2, -50)] 2 = some (-50) :=
  ⟨by decide, by decide,
    getRanking_keeps_rating sampleDB sampleRanker id "" [(1, 50), (2, -50), (3, 10), (4, -10)]
      [(1, 50), (2, -50)] 2 (-50) (by decide) (by decide) (by decide) (by decide)⟩

/-- C2: the active-team filter only restricts keys.  On a database that answers the two
past-year statements from its table `Games`, every key of the map that `getRanking`
returns is a key of the engine's mapping, with the engine's rating (no team appears
with the zero rating of an absent key). -/
theorem getRanking_keys_subset (db : DB) (R : Ranker) (range : List Int → List Int)
    (genus : String) (pick : List Game → Nat) (tbl : List Game) (lastYear : Nat)
    (rankings m : GoMap Int)
    (hdb : db.HoldsGames pick tbl lastYear) (hrange : ∀ l, (range l).Perm l)
    (hE : engineRankings db R genus = .ok rankings)
    (hG : getRanking db R range genus = .ok m) :
    ∀ team ∈ m.keys, team ∈ rankings.keys ∧ m.get? team = rankings.get? team := by
  obtain ⟨activeTeams, hA, rfl⟩ := getRanking_ok hE hG
  intro team hteam
  rw [activeRankings_mem_keys] at hteam
  have h1 : team ∈ activeTeams.keys := (hrange _).subset hteam
  have h2 : team ∈ range rankings.keys := (GetTeamsWithGamesInPastYear_sound hdb hA team h1).1
  have h3 : team ∈ rankings.keys := (hrange _).subset h2
  refine ⟨h3, ?_⟩
  rw [activeRankings_get?, if_pos hteam]
  have h4 := (GoMap.get?_isSome_iff rankings team).2 h3
  obtain ⟨v, hv⟩ := Option.isSome_iff_exists.1 h4
  simp [GoMap.index, hv]

theorem withGames_holds (db : DB) (pick : List Game → Nat) (tbl : List Game) (lastYear : Nat)
    (games : Stmt → Except Err (Rows GameResult)) :
    DB.HoldsGames { db.withGames pick tbl lastYear with games := games } pick tbl lastYear := by
  intro teams
  constructor
  · intro rows hrows t ht
    simp only [DB.withGames] at hrows
    injection hrows with hrows
    subst hrows
    simpa [Rows.ofList] using ht
  · intro rows hrows t ht
    simp only [DB.withGames] at hrows
    injection hrows with hrows
    subst hrows
    simpa [Rows.ofList] using ht

theorem getRanking_keys_subset_witness :
    sampleDB.HoldsGames (fun _ => 0) sampleGames 100 ∧
    getRanking sampleDB sampleRanker id "" = .ok [(1, 50), (2, -50)] ∧
    ∀ team ∈ GoMap.keys [(1, (50 : Int)), (2, -50)],
      team ∈ GoMap.keys [(1, (50 : Int)), (2, -50), (3, 10), (4, -10)] ∧
      GoMap.get? [(1, (50 : Int)), (2, -50)] team =
        GoMap.get? [(1, (50 : Int)), (2, -50), (3, 10), (4, -10)] team :=
  ⟨withGames_holds _ _ _ _ _, by decide,
    getRanking_keys_subset sampleDB sampleRanker id "" (fun _ => 0) sampleGames 100
      [(1, 50), (2, -50), (3, 10), (4, -10)] [(1, 50), (2, -50)]
      (withGames_holds _ _ _ _ _) (fun _ => List.Perm.refl _) (by decide) (by decide)⟩

/-! ## C3: the away teams of the past year -/

/-- C3, evaluated at `hostGames` (team 1 hosts team 2 and team 3 within the past year) for
the teams 1, 2, 3: the second statement groups by `homeTeam`, so it has a single row, and
whichever row of the group SQLite reads `awayTeam` from, the result is team 1 with only
one of the teams 2 and 3, although both have a game within the past year. -/
theorem GetTeamsWithGamesInPastYear_drops_away_team (pick : List Game → Nat) :
    (GetTeamsWithGamesInPastYear (DB.down.withGames pick hostGames 100) [1, 2, 3]
        = .ok [(1, ()), (2, ())] ∨
      GetTeamsWithGamesInPastYear (DB.down.withGames pick hostGames 100) [1, 2, 3]
        = .ok [(1, ()), (3, ())]) ∧
    PlaysSince hostGames 100 2 ∧ PlaysSince hostGames 100 3 := by
  refine ⟨?_, ⟨⟨1, 2, 400⟩, by decide, by decide, Or.inr rfl⟩,
    ⟨⟨1, 3, 401⟩, by decide, by decide, Or.inr rfl⟩⟩
  have hA : awayTeamsAnswer pick hostGames 100 [1, 2, 3] =
      List.filterMap (fun grp => (grp.get? (pick grp % grp.length)).map Game.awayTeam)
        [hostGames] := by
    unfold awayTeamsAnswer selectGrouped
    rfl
  have hH : homeTeamsAnswer pick hostGames 100 [1, 2, 3] =
      List.filterMap (fun grp => (grp.get? (pick grp % grp.length)).map Game.homeTeam)
        [hostGames] := by
    unfold homeTeamsAnswer selectGrouped
    rfl
  have hlen : hostGames.length = 2 := rfl
  have hcases : pick hostGames % 2 = 0 ∨ pick hostGames % 2 = 1 := by omega
  rcases hcases with h | h
  · left
    have hA2 : awayTeamsAnswer pick hostGames 100 [1, 2, 3] = [2] := by
      rw [hA]; simp only [List.filterMap_cons, hlen, h]; rfl
    have hH2 : homeTeamsAnswer pick hostGames 100 [1, 2, 3] = [1] := by
      rw [hH]; simp only [List.filterMap_cons, hlen, h]; rfl
    simp only [GetTeamsWithGamesInPastYear, DB.withGames, hA2, hH2]
    rfl
  · right
    have hA2 : awayTeamsAnswer pick hostGames 100 [1, 2, 3] = [3] := by
      rw [hA]; simp only [List.filterMap_cons, hlen, h]; rfl
    have hH2 : homeTeamsAnswer pick hostGames 100 [1, 2, 3] = [1] := by
      rw [hH]; simp only [List.filterMap_cons, hlen, h]; rfl
    simp only [GetTeamsWithGamesInPastYear, DB.withGames, hA2, hH2]
    rfl

/-! ## C8: errors of the game query -/

/-- An error that ends the iteration over the game rows changes nothing: `getRanking`
returns what it returns when the same rows end the result set. -/
theorem getRanking_ignores_rows_err (db : DB) (R : Ranker) (range : List Int → List Int)
    (genus : String) (scans : List (Except Err GameResult)) (e : Err) :
    getRanking { db with games := fun _ => .ok ⟨scans, some e⟩ } R range genus =
      getRanking { db with games := fun _ => .ok ⟨scans, none⟩ } R range genus := rfl

/-- C8, evaluated at `brokenDB`, where the iteration over the two game rows fails after
the first: `getRanking` returns no error but the ranking computed from the first game
alone, in which the teams 3 and 4 of the second game do not appear. -/
theorem getRanking_partial_games :
    (brokenDB.games (.ranking "")).map Rows.err = .ok (some "disk I/O error") ∧
    getRanking brokenDB sampleRanker id "" = .ok [(1, 50), (2, -50)] ∧
    engineRankings brokenDB sampleRanker "" = .ok [(1, 50), (2, -50)] ∧
    engineRankings sampleDB sampleRanker "" = .ok [(1, 50), (2, -50), (3, 10), (4, -10)] := by
  refine ⟨rfl, ?_, ?_, ?_⟩ <;> decide

/-! ## The loop of `renderLadder` -/

theorem foldl_ladderStep (region : String) (ti : GoMap TeamInfo) (rankings : GoMap Int)
    (ladder : List Int) (st : Int × List entry) :
    ladder.foldl (ladderStep region ti rankings) st =
      (st.1 + ((ladder.filter (passesRegion region ti)).length : Int),
        st.2 ++ numbered ti rankings st.1 (ladder.filter (passesRegion region ti))) := by
  induction ladder generalizing st with
  | nil => simp [numbered]
  | cons team rest ih =>
    rw [List.foldl_cons, ih]
    by_cases hskip : region ≠ "" ∧ (ti.index team).Region ≠ region
    · have hp : passesRegion region ti team = false := by
        simp only [passesRegion, decide_eq_false_iff_not, not_or]
        exact hskip
      simp [ladderStep, hskip, List.filter_cons, hp]
    · have hp : passesRegion region ti team = true := by
        simp only [passesRegion, decide_eq_true_eq]
        by_contra hc
        exact hskip ⟨fun h => hc (Or.inl h), fun h => hc (Or.inr h)⟩
      simp only [ladderStep, hskip, if_false, List.filter_cons, hp, if_true, List.length_cons,
        numbered, List.append_assoc, List.singleton_append]
      refine Prod.ext ?_ rfl
      simp only [Nat.cast_add, Nat.cast_one]
      ring

theorem ladderEntries_eq (region : String) (ti : GoMap TeamInfo) (rankings : GoMap Int)
    (ladder : List Int) :
    ladderEntries region ti rankings ladder =
      numbered ti rankings 0 (ladder.filter (passesRegion region ti)) := by
  unfold ladderEntries
  rw [foldl_ladderStep]
  simp

theorem numbered_map_Team (ti : GoMap TeamInfo) (rankings : GoMap Int) (rank : Int)
    (l : List Int) : (numbered ti rankings rank l).map entry.Team = l := by
  induction l generalizing rank with
  | nil => rfl
  | cons t l ih => simp [numbered, ih]

theorem numbered_map_Rating (ti : GoMap TeamInfo) (rankings : GoMap Int) (rank : Int)
    (l : List Int) :
    (numbered ti rankings rank l).map entry.Rating =
      l.map (fun team => (rankings.index team : ℚ) / 10) := by
  induction l generalizing rank with
  | nil => rfl
  | cons t l ih => simp [numbered, ih]

theorem numbered_get? (ti : GoMap TeamInfo) (rankings : GoMap Int) (rank : Int)
    (l : List Int) (k : Nat) (e : entry) (h : (numbered ti rankings rank l).get? k = some e) :
    e.Rank = rank + k + 1 ∧ l.get? k = some e.Team ∧ e.TeamInfo = ti.index e.Team ∧
      e.Rating = (rankings.index e.Team : ℚ) / 10 := by
  induction l generalizing rank k with
  | nil => simp [numbered] at h
  | cons t l ih =>
    cases k with
    | zero =>
      simp only [numbered, List.get?_cons_zero, Option.some.injEq] at h
      subst h
      simp
    | succ k =>
      simp only [numbered, List.get?_cons_succ] at h
      obtain ⟨h1, h2, h3, h4⟩ := ih (rank + 1) k h
      refine ⟨?_, ?_, h3, h4⟩
      · rw [h1]; push_cast; ring
      · simpa using h2

/-- C10: the entries that the loop of `renderLadder` builds from a ladder are the teams
of the ladder that pass the region filter (all of them when `region` is empty, otherwise
those whose `Region` is `region`), in the order of the ladder and once for each place of
the ladder; the entry at position `k` (from 0) has rank `k + 1`, the team's `TeamInfo`
and a tenth of its rating.  Ranks are counted after the filter. -/
theorem ladderEntries_ranks (region : String) (ti : GoMap TeamInfo) (rankings : GoMap Int)
    (ladder : List Int) :
    (ladderEntries region ti rankings ladder).map entry.Team =
        ladder.filter (fun team => decide (region = "" ∨ (ti.index team).Region = region)) ∧
    (∀ k e, (ladderEntries region ti rankings ladder).get? k = some e →
        e.Rank = (k : Int) + 1 ∧ e.TeamInfo = ti.index e.Team ∧
        e.Rating = (rankings.index e.Team : ℚ) / 10) ∧
    (region = "" → (ladderEntries region ti rankings ladder).map entry.Team = ladder) ∧
    (ladder.Nodup → ((ladderEntries region ti rankings ladder).map entry.Team).Nodup) := by
  have hT : (ladderEntries region ti rankings ladder).map entry.Team =
      ladder.filter (passesRegion region ti) := by
    rw [ladderEntries_eq, numbered_map_Team]
  refine ⟨hT, ?_, ?_, ?_⟩
  · intro k e hk
    rw [ladderEntries_eq] at hk
    obtain ⟨h1, _, h3, h4⟩ := numbered_get? ti rankings 0 _ k e hk
    exact ⟨by simpa using h1, h3, h4⟩
  · intro hregion
    rw [hT]
    apply List.filter_eq_self.2
    intro a _
    simp [passesRegion, hregion]
  · intro hnd
    rw [hT]
    exact hnd.filter _

/-! ## The insertion sort of Go -/

theorem go_insert_perm {α : Type} (less : α → α → Bool) (x : α) (l : List α) :
    (go_insert less x l).Perm (x :: l) := by
  induction l with
  | nil => exact List.Perm.refl _
  | cons p ps ih =>
    unfold go_insert
    by_cases h : less x p = true
    · rw [if_pos h]
      exact (List.Perm.cons p ih).trans (List.Perm.swap x p ps)
    · rw [if_neg h]

theorem go_insertionSort_perm {α : Type} (less : α → α → Bool) (l : List α) :
    (go_insertionSort less l).Perm l := by
  have key : ∀ (l acc : List α),
      (l.foldl (fun sorted x => go_insert less x sorted) acc).Perm (l.reverse ++ acc) := by
    intro l
    induction l with
    | nil => intro acc; exact List.Perm.refl _
    | cons x xs ih =>
      intro acc
      rw [List.foldl_cons, List.reverse_cons, List.append_assoc]
      exact (ih _).trans (List.Perm.append_left _ (go_insert_perm less x acc))
  unfold go_insertionSort
  refine (List.reverse_perm _).trans ?_
  have h := key l []
  rw [List.append_nil] at h
  exact h.trans (List.reverse_perm l)

theorem go_insert_ascending (rankings : GoMap Int) (x : Int) (l : List Int)
    (hl : l.Pairwise (fun a b => rankings.index a ≤ rankings.index b)) :
    (go_insert (ladderLess rankings) x l).Pairwise
      (fun a b => rankings.index a ≤ rankings.index b) := by
  induction l with
  | nil => simp [go_insert]
  | cons p ps ih =>
    rw [List.pairwise_cons] at hl
    unfold go_insert
    by_cases h : ladderLess rankings x p = true
    · rw [if_pos h]
      have hxp : rankings.index p < rankings.index x := by
        simpa [ladderLess] using h
      rw [List.pairwise_cons]
      refine ⟨?_, ih hl.2⟩
      intro b hb
      rcases List.mem_cons.1 ((go_insert_perm _ x ps).subset hb) with rfl | hb
      · exact le_of_lt hxp
      · exact hl.1 b hb
    · rw [if_neg h]
      have hxp : rankings.index x ≤ rankings.index p := by
        simpa [ladderLess] using h
      rw [List.pairwise_cons]
      refine ⟨?_, List.pairwise_cons.2 hl⟩
      intro b hb
      rcases List.mem_cons.1 hb with rfl | hb
      · exact hxp
      · exact le_trans hxp (hl.1 b hb)

/-- The insertion sort of Go keeps what `sort.Slice` promises. -/
theorem go_insertionSort_sorts : SortsDescending go_insertionSort := by
  intro rankings l
  refine ⟨go_insertionSort_perm _ l, ?_⟩
  have key : ∀ (l acc : List Int),
      acc.Pairwise (fun a b => rankings.index a ≤ rankings.index b) →
      (l.foldl (fun sorted x => go_insert (ladderLess rankings) x sorted) acc).Pairwise
        (fun a b => rankings.index a ≤ rankings.index b) := by
    intro l
    induction l with
    | nil => intro acc h; exact h
    | cons x xs ih =>
      intro acc h
      rw [List.foldl_cons]
      exact ih _ (go_insert_ascending rankings x acc h)
  unfold go_insertionSort
  rw [List.pairwise_reverse]
  exact key l [] List.Pairwise.nil

/-! ## C4: the order of the ladder -/

theorem renderLadder_ok {db : DB} {R : Ranker} {range : List Int → List Int}
    {srt : (Int → Int → Bool) → List Int → List Int} {tmpl : Templates}
    {genus region : String} {data : LadderData}
    (h : renderLadder db R range srt tmpl genus region = .ok data) :
    ∃ rankings ti, getRanking db R range genus = .ok rankings ∧
      GetTeamInfo db (sortLadder srt range rankings) = .ok ti ∧
      data.Rankings = ladderEntries region ti rankings (sortLadder srt range rankings) := by
  unfold renderLadder at h
  cases h1 : getRanking db R range genus with
  | error e => rw [h1] at h; cases h
  | ok rankings =>
    rw [h1] at h
    simp only at h
    cases h2 : GetTeamInfo db (sortLadder srt range rankings) with
    | error e => rw [h2] at h; cases h
    | ok ti =>
      rw [h2] at h
      simp only at h
      cases h3 : tmpl.ParseFiles ["templates/ladder.html", "templates/common.html"] with
      | some e => rw [h3] at h; cases h
      | none =>
        rw [h3] at h
        simp only at h
        cases h4 : tmpl.Execute ["templates/ladder.html", "templates/common.html"] with
        | some e => rw [h4] at h; cases h
        | none =>
          rw [h4] at h
          simp only at h
          injection h with h
          exact ⟨rankings, ti, rfl, h2, by rw [← h]⟩

theorem ladderEntries_sorted (rankings : GoMap Int) (ti : GoMap TeamInfo) (region : String)
    (ladder : List Int)
    (h : ladder.Pairwise (fun a b => rankings.index a ≥ rankings.index b)) :
    (ladderEntries region ti rankings ladder).Pairwise (fun a b => a.Rating ≥ b.Rating) := by
  have h1 : ((ladderEntries region ti rankings ladder).map entry.Rating).Pairwise (· ≥ ·) := by
    rw [ladderEntries_eq, numbered_map_Rating]
    refine List.Pairwise.map _ ?_ (h.filter _)
    intro a b hab
    have : (rankings.index b : ℚ) ≤ (rankings.index a : ℚ) := by exact_mod_cast hab
    show (rankings.index a : ℚ) / 10 ≥ (rankings.index b : ℚ) / 10
    exact div_le_div_of_nonneg_right this (by norm_num)
  exact List.pairwise_map.1 h1

/-- C4: the ladder entries built by `renderLadder` are in non-increasing order of rating,
for every rankings map, team-info map and region, whatever the order in which `range`
visits the map, as soon as `sort.Slice` sorts.  This holds for the entries computed from
any maps, and so for the entries of the data of any page that `renderLadder` writes. -/
theorem renderLadder_sorted (srt : (Int → Int → Bool) → List Int → List Int)
    (hs : SortsDescending srt) :
    (∀ (range : List Int → List Int) (rankings : GoMap Int) (ti : GoMap TeamInfo)
        (region : String),
        (ladderEntries region ti rankings (sortLadder srt range rankings)).Pairwise
          (fun a b => a.Rating ≥ b.Rating)) ∧
    (∀ (db : DB) (R : Ranker) (range : List Int → List Int) (tmpl : Templates)
        (genus region : String) (data : LadderData),
        renderLadder db R range srt tmpl genus region = .ok data →
        data.Rankings.Pairwise (fun a b => a.Rating ≥ b.Rating)) := by
  have h1 : ∀ (range : List Int → List Int) (rankings : GoMap Int) (ti : GoMap TeamInfo)
      (region : String),
      (ladderEntries region ti rankings (sortLadder srt range rankings)).Pairwise
        (fun a b => a.Rating ≥ b.Rating) := by
    intro range rankings ti region
    exact ladderEntries_sorted rankings ti region _ (hs rankings _).2
  refine ⟨h1, ?_⟩
  intro db R range tmpl genus region data h
  obtain ⟨rankings, ti, _, _, hd⟩ := renderLadder_ok h
  rw [hd]
  exact h1 range rankings ti region

theorem renderLadder_sorted_witness :
    SortsDescending go_insertionSort ∧
    (ladderEntries "" [] [(1, 5), (2, 7), (3, 5)]
        (sortLadder go_insertionSort id [(1, 5), (2, 7), (3, 5)])).map entry.Team = [2, 1, 3] ∧
    (ladderEntries "" [] [(1, 5), (2, 7), (3, 5)]
        (sortLadder go_insertionSort id [(1, 5), (2, 7), (3, 5)])).Pairwise
      (fun a b => a.Rating ≥ b.Rating) :=
  ⟨go_insertionSort_sorts, by decide,
    (renderLadder_sorted go_insertionSort go_insertionSort_sorts).1 id
      [(1, 5), (2, 7), (3, 5)] [] ""⟩

/-! ## C5: teams of equal rating -/

/-- C5 fails as stated: for one and the same rankings map, in which the teams 1, 2 and 3
all have rating 0, the ladder is 1, 2, 3 when `range` visits the keys in that order and
2, 3, 1 when it visits them from the second on; and for one and the same database the
page lists the teams as 1, 3, 2 under the first order and as 2, 1, 3 under the second.
No tiebreak by team identifier places them. -/
theorem ladder_order_depends_on_range :
    sortLadder go_insertionSort id [(1, 0), (2, 0), (3, 0)] = [1, 2, 3] ∧
    sortLadder go_insertionSort rotated [(1, 0), (2, 0), (3, 0)] = [2, 3, 1] ∧
    (renderLadder tieDB sampleRanker id go_insertionSort sampleTemplates "" "").map
        (fun d => d.Rankings.map entry.Team) = .ok [1, 3, 2] ∧
    (renderLadder tieDB sampleRanker rotated go_insertionSort sampleTemplates "" "").map
        (fun d => d.Rankings.map entry.Team) = .ok [2, 1, 3] := by
  refine ⟨?_, ?_, ?_, ?_⟩ <;> decide

theorem map_injOn_eq {f : Int → Int} :
    ∀ (l₁ l₂ : List Int), (∀ a ∈ l₁, ∀ b ∈ l₂, f a = f b → a = b) →
      l₁.map f = l₂.map f → l₁ = l₂
  | [], [], _, _ => rfl
  | [], _ :: _, _, h => by simp at h
  | _ :: _, [], _, h => by simp at h
  | a :: l₁, b :: l₂, hinj, h => by
    simp only [List.map_cons, List.cons.injEq] at h
    have hab : a = b := hinj a (List.mem_cons_self _ _) b (List.mem_cons_self _ _) h.1
    have ht : l₁ = l₂ :=
      map_injOn_eq l₁ l₂
        (fun x hx y hy => hinj x (List.mem_cons_of_mem _ hx) y (List.mem_cons_of_mem _ hy)) h.2
    rw [hab, ht]

theorem numbered_map_Rank (ti : GoMap TeamInfo) (rankings : GoMap Int) (rank : Int)
    (l₁ l₂ : List Int) (h : l₁.length = l₂.length) :
    (numbered ti rankings rank l₁).map entry.Rank =
      (numbered ti rankings rank l₂).map entry.Rank := by
  induction l₁ generalizing rank l₂ with
  | nil =>
    cases l₂ with
    | nil => rfl
    | cons b l₂ => simp at h
  | cons a l₁ ih =>
    cases l₂ with
    | nil => simp at h
    | cons b l₂ =>
      simp only [List.length_cons, Nat.add_right_cancel_iff] at h
      simp only [numbered, List.map_cons, List.cons.injEq, true_and]
      exact ih (rank + 1) l₂ h

/-- C5 as amended: the ladder is a function of the rankings map up to the order of the
teams of equal rating.  For the same rankings map, team-info map and region, whatever
the orders in which `range` visits the keys and whatever sorting routines keep the
promise of `sort.Slice`, two runs produce the same ratings and the same ranks place by
place and the same teams; when no two keys of the map have the same rating they produce
the same entries. -/
theorem ladder_determined_up_to_ties
    (srt₁ srt₂ : (Int → Int → Bool) → List Int → List Int)
    (range₁ range₂ : List Int → List Int) (rankings : GoMap Int) (ti : GoMap TeamInfo)
    (region : String)
    (hs₁ : SortsDescending srt₁) (hs₂ : SortsDescending srt₂)
    (hr₁ : ∀ l, (range₁ l).Perm l) (hr₂ : ∀ l, (range₂ l).Perm l) :
    (ladderEntries region ti rankings (sortLadder srt₁ range₁ rankings)).map entry.Rating =
      (ladderEntries region ti rankings (sortLadder srt₂ range₂ rankings)).map entry.Rating ∧
    (ladderEntries region ti rankings (sortLadder srt₁ range₁ rankings)).map entry.Rank =
      (ladderEntries region ti rankings (sortLadder srt₂ range₂ rankings)).map entry.Rank ∧
    ((ladderEntries region ti rankings (sortLadder srt₁ range₁ rankings)).map entry.Team).Perm
      ((ladderEntries region ti rankings (sortLadder srt₂ range₂ rankings)).map entry.Team) ∧
    ((∀ a ∈ rankings.keys, ∀ b ∈ rankings.keys,
        rankings.index a = rankings.index b → a = b) →
      ladderEntries region ti rankings (sortLadder srt₁ range₁ rankings) =
        ladderEntries region ti rankings (sortLadder srt₂ range₂ rankings)) := by
  have hp₁ : (sortLadder srt₁ range₁ rankings).Perm rankings.keys :=
    (hs₁ rankings _).1.trans (hr₁ _)
  have hp₂ : (sortLadder srt₂ range₂ rankings).Perm rankings.keys :=
    (hs₂ rankings _).1.trans (hr₂ _)
  have hperm : ((sortLadder srt₁ range₁ rankings).filter (passesRegion region ti)).Perm
      ((sortLadder srt₂ range₂ rankings).filter (passesRegion region ti)) :=
    (hp₁.trans hp₂.symm).filter _
  have hsorted₁ : (((sortLadder srt₁ range₁ rankings).filter (passesRegion region ti)).map
      rankings.index).Sorted (· ≥ ·) :=
    List.pairwise_map.2 ((hs₁ rankings _).2.filter _)
  have hsorted₂ : (((sortLadder srt₂ range₂ rankings).filter (passesRegion region ti)).map
      rankings.index).Sorted (· ≥ ·) :=
    List.pairwise_map.2 ((hs₂ rankings _).2.filter _)
  have hidx : ((sortLadder srt₁ range₁ rankings).filter (passesRegion region ti)).map
        rankings.index =
      ((sortLadder srt₂ range₂ rankings).filter (passesRegion region ti)).map rankings.index :=
    List.eq_of_perm_of_sorted (hperm.map _) hsorted₁ hsorted₂
  refine ⟨?_, ?_, ?_, ?_⟩
  · rw [ladderEntries_eq, ladderEntries_eq, numbered_map_Rating, numbered_map_Rating]
    have hcomp : ∀ l : List Int, l.map (fun team => (rankings.index team : ℚ) / 10) =
        (l.map rankings.index).map (fun (r : Int) => (r : ℚ) / 10) := by
      intro l
      rw [List.map_map]
      rfl
    rw [hcomp, hcomp, hidx]
  · rw [ladderEntries_eq, ladderEntries_eq]
    exact numbered_map_Rank ti rankings 0 _ _ hperm.length_eq
  · rw [ladderEntries_eq, ladderEntries_eq, numbered_map_Team, numbered_map_Team]
    exact hperm
  · intro hinj
    rw [ladderEntries_eq, ladderEntries_eq]
    congr 1
    refine map_injOn_eq _ _ ?_ hidx
    intro a ha b hb hab
    exact hinj a (hp₁.subset (List.mem_of_mem_filter ha)) b
      (hp₂.subset (List.mem_of_mem_filter hb)) hab

theorem ladder_determined_up_to_ties_witness :
    SortsDescending go_insertionSort ∧ (∀ l, (rotated l).Perm l) ∧
    (ladderEntries "" [] [(1, 0), (2, 0), (3, 4)]
        (sortLadder go_insertionSort id [(1, 0), (2, 0), (3, 4)])).map entry.Team = [3, 1, 2] ∧
    (ladderEntries "" [] [(1, 0), (2, 0), (3, 4)]
        (sortLadder go_insertionSort rotated [(1, 0), (2, 0), (3, 4)])).map entry.Team
      = [3, 2, 1] ∧
    (ladderEntries "" [] [(1, 0), (2, 0), (3, 4)]
        (sortLadder go_insertionSort id [(1, 0), (2, 0), (3, 4)])).map entry.Rating =
      (ladderEntries "" [] [(1, 0), (2, 0), (3, 4)]
        (sortLadder go_insertionSort rotated [(1, 0), (2, 0), (3, 4)])).map entry.Rating :=
  ⟨go_insertionSort_sorts, fun l => List.rotate_perm l 1, by decide, by decide,
    (ladder_determined_up_to_ties go_insertionSort go_insertionSort id rotated
      [(1, 0), (2, 0), (3, 4)] [] "" go_insertionSort_sorts go_insertionSort_sorts
      (fun _ => List.Perm.refl _) (fun l => List.rotate_perm l 1)).1⟩

/-! ## C6: `GetTeamInfo` -/

theorem storeTeam_eq (result : GoMap TeamInfo) (row : TeamRow) :
    storeTeam result row = result.set row.team (teamInfoOf row) := by
  obtain ⟨team, parentTeam, league, parentLeague, name, type, location, website, region,
    genus⟩ := row
  cases parentTeam with
  | none => simp [storeTeam, teamInfoOf]
  | some parent => simp [storeTeam, teamInfoOf]

theorem forRows_storeTeam_get? (scans : List (Except Err TeamRow)) (acc res : GoMap TeamInfo)
    (k : Int) (h : forRows storeTeam acc scans = .ok res)
    (hk : ∀ r, Except.ok r ∈ scans → r.team ≠ k) : res.get? k = acc.get? k := by
  induction scans generalizing acc with
  | nil =>
    simp only [forRows] at h
    injection h with h
    rw [h]
  | cons sc rest ih =>
    cases sc with
    | error e => simp [forRows] at h
    | ok a =>
      simp only [forRows] at h
      rw [ih _ h (fun r hr => hk r (List.mem_cons_of_mem _ hr)), storeTeam_eq, GoMap.get?_set]
      have hne : ¬ k = a.team := fun e => hk a (List.mem_cons_self _ _) e.symm
      rw [if_neg hne]

theorem forRows_storeTeam_last (pre post : List (Except Err TeamRow)) (row : TeamRow)
    (acc res : GoMap TeamInfo)
    (h : forRows storeTeam acc (pre ++ .ok row :: post) = .ok res)
    (hlast : ∀ r, Except.ok r ∈ post → r.team ≠ row.team) :
    res.get? row.team = some (teamInfoOf row) := by
  induction pre generalizing acc with
  | nil =>
    simp only [List.nil_append, forRows] at h
    rw [forRows_storeTeam_get? post _ res row.team h hlast, storeTeam_eq, GoMap.get?_set,
      if_pos rfl]
  | cons sc rest ih =>
    cases sc with
    | error e => simp [forRows] at h
    | ok a =>
      simp only [List.cons_append, forRows] at h
      exact ih _ h

/-- C6: league inheritance in `GetTeamInfo`.  For every row that the team query returned
(the last one, should the result set hold several rows of one team id) the `TeamInfo`
stored under the row's team id has the league of the parent team when `ParentTeam` is
non-null and the team's own league when it is null; every other field is the row's own
value. -/
theorem GetTeamInfo_league (db : DB) (teams : List Int) (pre post : List (Except Err TeamRow))
    (row : TeamRow) (err : Option Err) (result : GoMap TeamInfo)
    (hq : db.info (.teamInfo teams) = .ok ⟨pre ++ .ok row :: post, err⟩)
    (hlast : ∀ r, Except.ok r ∈ post → r.team ≠ row.team)
    (h : GetTeamInfo db teams = .ok result) :
    result.get? row.team = some
      { Team := row.team, ParentTeam := row.parentTeam,
        League := if row.parentTeam.isSome then row.parentLeague else row.league,
        Name := row.name, Type_ := row.type, Location := row.location,
        Website := row.website, Region := row.region, Genus := row.genus } := by
  unfold GetTeamInfo at h
  rw [hq] at h
  exact forRows_storeTeam_last pre post row [] result h hlast

theorem GetTeamInfo_league_witness :
    (GetTeamInfo teamDB [3, 7]).map (fun result => result.get? 7) = .ok (some
      ⟨7, some 3, "Gotham", "Gotham B", "B Team", "New York", "", "Northern America",
        "Women"⟩) ∧
    (GetTeamInfo teamDB [3, 7]).map (fun result => (result.index 3).League) = .ok "Gotham" ∧
    ∀ result, GetTeamInfo teamDB [3, 7] = .ok result →
      result.get? sampleTeamRow.team = some (teamInfoOf sampleTeamRow) :=
  ⟨by decide, by decide, fun result h =>
    GetTeamInfo_league teamDB [3, 7]
      [.ok ⟨3, none, "Gotham", "", "Gotham A", "Travel Team", "New York", "",
        "Northern America", "Women"⟩] [] sampleTeamRow none result rfl (by simp) h⟩

/-! ## C7: the list of ids in the SQL text -/

theorem digitChar_isDigit : ∀ d, d < 10 → (Nat.digitChar d).isDigit = true := by decide

theorem toDigitsCore_isDigit (fuel : Nat) :
    ∀ (n : Nat) (ds : List Char), (∀ c ∈ ds, c.isDigit = true) →
      ∀ c ∈ Nat.toDigitsCore 10 fuel n ds, c.isDigit = true := by
  induction fuel with
  | zero => intro n ds hds c hc; exact hds c (by simpa [Nat.toDigitsCore] using hc)
  | succ fuel ih =>
    intro n ds hds c hc
    have hd : ∀ c ∈ Nat.digitChar (n % 10) :: ds, c.isDigit = true := by
      intro c hc
      rcases List.mem_cons.1 hc with rfl | hc
      · exact digitChar_isDigit _ (Nat.mod_lt _ (by norm_num))
      · exact hds c hc
    simp only [Nat.toDigitsCore] at hc
    split at hc
    · exact hd c hc
    · exact ih _ _ hd c hc

theorem FormatInt_chars (t : Int) : ∀ c ∈ (FormatInt t).toList, c.isDigit = true ∨ c = '-' := by
  intro c hc
  cases t with
  | ofNat n =>
    left
    exact toDigitsCore_isDigit _ _ [] (by simp) c hc
  | negSucc n =>
    simp only [FormatInt, String.toList, List.mem_cons] at hc
    rcases hc with rfl | hc
    · right; rfl
    · left
      exact toDigitsCore_isDigit _ _ [] (by simp) c hc

theorem Join_chars (sep : String) :
    ∀ (l : List String) (c : Char), c ∈ (Join l sep).toList →
      c ∈ sep.toList ∨ ∃ s ∈ l, c ∈ s.toList
  | [], c, h => by simp [Join] at h
  | [a], c, h => Or.inr ⟨a, List.mem_singleton_self a, h⟩
  | a :: b :: rest, c, h => by
    simp only [Join, String.toList, String.data_append, List.mem_append] at h
    rcases h with (h | h) | h
    · exact Or.inr ⟨a, List.mem_cons_self _ _, h⟩
    · exact Or.inl h
    · rcases Join_chars sep (b :: rest) c h with h | ⟨s, hs, hc⟩
      · exact Or.inl h
      · exact Or.inr ⟨s, List.mem_cons_of_mem _ hs, hc⟩

/-- The rendering of `FormatInt` is the decimal rendering of the integer. -/
theorem FormatInt_eq_toString (t : Int) : FormatInt t = toString t := by
  cases t <;> rfl

theorem Join_append_head (sep x y : String) (rest : List String) :
    Join ((x ++ y) :: rest) sep = x ++ Join (y :: rest) sep := by
  cases rest with
  | nil => rfl
  | cons c r => simp only [Join, String.append_assoc]

theorem intercalate_go_eq_Join (sep : String) (l : List String) (acc : String) :
    String.intercalate.go acc sep l = Join (acc :: l) sep := by
  induction l generalizing acc with
  | nil => rfl
  | cons b rest ih =>
    rw [String.intercalate.go, ih, Join_append_head, String.append_assoc]
    simp only [Join, String.append_assoc]

/-- The model of `strings.Join` is the library's `String.intercalate`. -/
theorem Join_eq_intercalate (sep : String) (l : List String) :
    Join l sep = String.intercalate sep l := by
  cases l with
  | nil => rfl
  | cons a rest => rw [String.intercalate, intercalate_go_eq_Join]

/-- C7: for every list of team ids, the text that `GetTeamInfo` and the two statements of
`GetTeamsWithGamesInPastYear` splice between the parentheses of `in (...)` is the
base-10 renderings of the ids with a comma between each two (`String.intercalate`), and
all its characters are digits, `-` or `,`. -/
theorem id_list_is_numeric (teams : List Int) :
    Stmt.sql (.teamInfo teams) =
      "SELECT Teams.team, Teams.parentTeam, COALESCE(Teams.league, \"\"), COALESCE(parent.league, \"\"), COALESCE(Teams.name, \"\"), \n" ++
      "         COALESCE(Teams.type, \"\"), COALESCE(Teams.location, \"\"), COALESCE(Teams.website, \"\"), COALESCE(Teams.region, \"\"), COALESCE(Teams.genus, \"\")\n" ++
      "      FROM Teams \n" ++
      "      LEFT JOIN Teams as parent ON Teams.parentTeam = parent.team\n" ++
      "      WHERE Teams.team in (" ++
        String.intercalate "," (teams.map (fun t => toString t)) ++ ")" ∧
    Stmt.sql (.homeTeams teams) =
      "SELECT homeTeam FROM Games WHERE day >= DATE(\"now\", \"-1 year\") \n      AND homeTeam in (" ++
        String.intercalate "," (teams.map (fun t => toString t)) ++ ") GROUP BY homeTeam" ∧
    Stmt.sql (.awayTeams teams) =
      "SELECT awayTeam FROM Games WHERE day >= DATE(\"now\", \"-1 year\")\n      AND awayTeam in (" ++
        String.intercalate "," (teams.map (fun t => toString t)) ++ ") GROUP BY homeTeam" ∧
    ∀ c ∈ (String.intercalate "," (teams.map (fun t => toString t))).toList,
      c.isDigit = true ∨ c = '-' ∨ c = ',' := by
  have hids : teams.map (fun t => toString t) = ids teams := by
    unfold ids
    exact List.map_congr_left (fun t _ => (FormatInt_eq_toString t).symm)
  rw [hids, ← Join_eq_intercalate]
  refine ⟨rfl, rfl, rfl, ?_⟩
  intro c hc
  rcases Join_chars "," (ids teams) c hc with h | ⟨s, hs, hcs⟩
  · right; right
    simpa using h
  · obtain ⟨t, _, rfl⟩ := List.mem_map.1 hs
    rcases FormatInt_chars t c hcs with h | h
    · exact Or.inl h
    · exact Or.inr (Or.inl h)

theorem id_list_is_numeric_witness :
    String.intercalate "," ([1, -2, 30].map (fun (t : Int) => toString t)) = "1,-2,30" ∧
    Stmt.sql (.homeTeams [1, -2, 30]) =
      "SELECT homeTeam FROM Games WHERE day >= DATE(\"now\", \"-1 year\") \n      AND homeTeam in (1,-2,30) GROUP BY homeTeam" ∧
    Stmt.sql (.awayTeams [1, -2, 30]) =
      "SELECT awayTeam FROM Games WHERE day >= DATE(\"now\", \"-1 year\")\n      AND awayTeam in (" ++
        String.intercalate "," ([1, -2, 30].map (fun (t : Int) => toString t)) ++
        ") GROUP BY homeTeam" ∧
    Stmt.sql (.homeTeams []) =
      "SELECT homeTeam FROM Games WHERE day >= DATE(\"now\", \"-1 year\") \n      AND homeTeam in () GROUP BY homeTeam" :=
  ⟨rfl, rfl, (id_list_is_numeric [1, -2, 30]).2.2.1, rfl⟩

/-! ## C9: `serveDump` -/

theorem dumpLoop_spec (db : DB) (tmpl : Templates) (table : String) (ts : List String) :
    (table ∈ ts → (dumpLoop db tmpl table ts).queries = ["SELECT * FROM " ++ table]) ∧
    (table ∉ ts → dumpLoop db tmpl table ts = ⟨[], dumpIndex tmpl⟩) := by
  induction ts with
  | nil => exact ⟨fun h => by simp at h, fun _ => rfl⟩
  | cons t ts ih =>
    by_cases ht : t = table
    · subst ht
      refine ⟨fun _ => ?_, fun h => absurd (List.mem_cons_self _ _) h⟩
      simp only [dumpLoop, if_true]
      cases db.table (.dump t) <;> rfl
    · simp only [dumpLoop, ht, if_false]
      refine ⟨fun h => ih.1 ?_, fun h => ih.2 ?_⟩
      · rcases List.mem_cons.1 h with h | h
        · exact absurd h.symm ht
        · exact h
      · exact fun hm => h (List.mem_cons_of_mem _ hm)

theorem dumpLoop_response (db : DB) (tmpl : Templates) (table : String) (ts : List String) :
    table ∈ ts → (dumpLoop db tmpl table ts).response =
      match db.table (.dump table) with
      | .error e => .error e 500
      | .ok rows => .csv "text/csv" ("attachment; filename=\"" ++ table ++ ".csv\"") rows := by
  induction ts with
  | nil => intro h; simp at h
  | cons t ts ih =>
    intro h
    by_cases ht : t = table
    · subst ht
      simp only [dumpLoop, if_true]
      cases db.table (.dump t) <;> rfl
    · simp only [dumpLoop, ht, if_false]
      rcases List.mem_cons.1 h with h | h
      · exact absurd h.symm ht
      · exact ih h

/-- C9: `serveDump` queries only the tables of its list.  For a request whose first
value of the parameter `table` is `table`, a query is issued exactly when `table` is one
of `Games`, `Teams`, `Tournaments`, `GameSanctioning`, `TournamentHostingTeams`; it is
then the single query `SELECT * FROM ` followed by that name, and the response is the CSV
download of its rows or the error of the query.  For every other value, and for a
request without the parameter, no query is issued and the response is the index page of
`templates/dump.html`, whose data is the list of the five tables (the error page when
the template engine fails). -/
theorem serveDump_whitelist (db : DB) (tmpl : Templates) (table : String)
    (more : List String) :
    ((serveDump db tmpl (table :: more)).queries ≠ [] ↔
      table ∈ ["Games", "Teams", "Tournaments", "GameSanctioning", "TournamentHostingTeams"]) ∧
    (table ∈ ["Games", "Teams", "Tournaments", "GameSanctioning", "TournamentHostingTeams"] →
      (serveDump db tmpl (table :: more)).queries = ["SELECT * FROM " ++ table] ∧
      (serveDump db tmpl (table :: more)).response =
        match db.table (.dump table) with
        | .error e => .error e 500
        | .ok rows => .csv "text/csv" ("attachment; filename=\"" ++ table ++ ".csv\"") rows) ∧
    (table ∉ ["Games", "Teams", "Tournaments", "GameSanctioning", "TournamentHostingTeams"] →
      (serveDump db tmpl (table :: more)).queries = [] ∧
      (serveDump db tmpl (table :: more)).response = (serveDump db tmpl []).response) ∧
    (serveDump db tmpl []).queries = [] ∧
    (serveDump db tmpl []).response =
      (match tmpl.ParseFiles ["templates/dump.html", "templates/common.html"] with
       | some e => .error e 500
       | none =>
         match tmpl.Execute ["templates/dump.html", "templates/common.html"] with
         | some e => .error e 500
         | none => .page ["templates/dump.html", "templates/common.html"]
             ["Games", "Teams", "Tournaments", "GameSanctioning", "TournamentHostingTeams"]) := by
  have hspec := dumpLoop_spec db tmpl table tables
  have hresp := dumpLoop_response db tmpl table tables
  have hempty : serveDump db tmpl [] = ⟨[], dumpIndex tmpl⟩ :=
    (dumpLoop_spec db tmpl "" tables).2 (by decide)
  have hcons : serveDump db tmpl (table :: more) = dumpLoop db tmpl table tables := rfl
  refine ⟨?_, ?_, ?_, ?_, ?_⟩
  · constructor
    · intro hq
      by_contra hnot
      exact hq (by rw [hcons, hspec.2 hnot])
    · intro hin
      rw [hcons, hspec.1 hin]
      simp
  · intro hin
    rw [hcons]
    exact ⟨hspec.1 hin, hresp hin⟩
  · intro hnot
    rw [hcons, hspec.2 hnot, hempty]
    exact ⟨rfl, rfl⟩
  · rw [hempty]
  · rw [hempty]
    rfl

theorem serveDump_whitelist_witness :
    serveDump dumpDB sampleTemplates ["Teams"] =
      ⟨["SELECT * FROM Teams"],
        .csv "text/csv" "attachment; filename=\"Teams.csv\""
          [["team", "name"], ["7", "Gotham B"]]⟩ ∧
    serveDump dumpDB sampleTemplates ["Teams; DROP TABLE Teams"] =
      ⟨[], .page ["templates/dump.html", "templates/common.html"]
        ["Games", "Teams", "Tournaments", "GameSanctioning", "TournamentHostingTeams"]⟩ ∧
    serveDump dumpDB sampleTemplates [] =
      ⟨[], .page ["templates/dump.html", "templates/common.html"]
        ["Games", "Teams", "Tournaments", "GameSanctioning", "TournamentHostingTeams"]⟩ ∧
    (serveDump dumpDB sampleTemplates ["Games", "nothing"]).queries =
      ["SELECT * FROM " ++ "Games"] :=
  ⟨by decide, by decide, by decide,
    ((serveDump_whitelist dumpDB sampleTemplates "Games" ["nothing"]).2.1 (by decide)).1⟩

end Rankings
